import Mathlib

/-!
Shallow embedding of the agent-go diagnostic agent: the value inspector,
fingerprinter and capture assembler (pkg/capture/capture.go), the
WebSocket connection manager (pkg/transport), and the non-breaking
breakpoint manager (pkg/breakpoint), together with theorems checking the
specification's testable properties against the embedded code.

Machine integers are modelled as `Int`/`Nat`; Go's `time.Duration` values
are integer nanoseconds.  Effects (clock reads, stack sampling, socket
I/O) are passed in as explicit parameters, and the concurrent state is
modelled sequentially, following the source's single-lock discipline.
-/

set_option maxRecDepth 100000

namespace AgentGo

/-- Shapes of Go runtime values as seen by the reflection switch of
`captureValue` (pkg/capture/capture.go).  `vnil` is the untyped nil
interface (the `value == nil` test); `vptr` covers `reflect.Ptr` and
`reflect.Interface`, with `inner = none` for a typed nil; `vscalar`
carries the `reflect.Type.String()` name and the `fmt.Sprintf` rendering
of a bool/int/uint/float/complex; struct fields carry an exported flag
because the source iterates over all fields (counting them against the
cap of 100) and skips unexported ones inside the loop; `vother` is the
default case, carrying the type name and the `reflect.Kind` name. -/
inductive GoValue where
  | vnil : GoValue
  | vscalar (typeName rendered : String) : GoValue
  | vstring (s : String) : GoValue
  | vptr (typeName : String) (inner : Option GoValue) : GoValue
  | vslice (typeName : String) (elems : List GoValue) : GoValue
  | vmap (typeName : String) (entries : List (String × GoValue)) : GoValue
  | vstruct (typeName shortName : String) (fields : List (Bool × String × GoValue)) : GoValue
  | vother (typeName kindName : String) : GoValue
  deriving Repr

/-- The `Variable` diagnostic tree node of pkg/capture/capture.go:
name, type label, rendered value, null and truncation flags, child map
(modelled as an association list), ordered element list and optional
declared length (Go `*int`). -/
inductive Variable where
  | mk (name type value : String) (isNull isTruncated : Bool)
       (children : List (String × Variable))
       (arrayElements : List Variable)
       (arrayLength : Option Int) : Variable
  deriving Repr

def Variable.name : Variable → String
  | .mk n _ _ _ _ _ _ _ => n

def Variable.type : Variable → String
  | .mk _ t _ _ _ _ _ _ => t

def Variable.value : Variable → String
  | .mk _ _ v _ _ _ _ _ => v

def Variable.isNull : Variable → Bool
  | .mk _ _ _ b _ _ _ _ => b

def Variable.isTruncated : Variable → Bool
  | .mk _ _ _ _ b _ _ _ => b

def Variable.children : Variable → List (String × Variable)
  | .mk _ _ _ _ _ c _ _ => c

def Variable.arrayElements : Variable → List Variable
  | .mk _ _ _ _ _ _ a _ => a

def Variable.arrayLength : Variable → Option Int
  | .mk _ _ _ _ _ _ _ l => l

/-- Association-list upsert, modelling assignment into a Go map keyed
by strings: an existing key is overwritten in place, a new key is
appended. -/
def assocSet {α : Type} (m : List (String × α)) (k : String) (v : α) :
    List (String × α) :=
  if m.any (fun p => p.1 == k) then
    m.map (fun p => if p.1 == k then (k, v) else p)
  else m ++ [(k, v)]

/-- Association-list lookup, modelling indexing a Go map. -/
def assocGet {α : Type} (m : List (String × α)) (k : String) : Option α :=
  (m.find? (fun p => p.1 == k)).map Prod.snd

/-- Key-presence test for the association-list map model. -/
def assocHasKey {α : Type} (m : List (String × α)) (k : String) : Bool :=
  m.any (fun p => p.1 == k)

/-- `reflect.TypeOf(value).String()` for a non-nil value, as recorded in
the `GoValue` shape. -/
def goTypeName : GoValue → String
  | .vnil => "nil"
  | .vscalar t _ => t
  | .vstring _ => "string"
  | .vptr t _ => t
  | .vslice t _ => t
  | .vmap t _ => t
  | .vstruct t _ _ => t
  | .vother t _ => t

/-- The `<max depth exceeded>` placeholder node returned by the depth
guard of `captureValue`. -/
def maxDepthVar (name t : String) : Variable :=
  Variable.mk name t "<max depth exceeded>" false true [] [] none

mutual

/-- `captureValue` of pkg/capture/capture.go.  The source checks
`value == nil`, then the depth guard `depth > maxDepth`, then switches on
`reflect.Kind`; here the guard (whose result only depends on the type
name, fixed per shape) is distributed into each non-nil branch, which
yields the same node.  The `reflect.Invalid` arm of the source is
unreachable (a non-nil interface always has a valid reflect value) and
is omitted.  String clipping works on `String.data`, matching Go's
byte-wise `len`/slice on the ASCII values used here. -/
def captureValue (name : String) (v : GoValue) (depth maxDepth : Int) : Variable :=
  match v with
  | GoValue.vnil =>
      Variable.mk name "nil" "nil" true false [] [] none
  | GoValue.vscalar t r =>
      if depth > maxDepth then maxDepthVar name t
      else Variable.mk name t r false false [] [] none
  | GoValue.vstring s =>
      if depth > maxDepth then maxDepthVar name "string"
      else
        Variable.mk name "string" (String.mk (s.data.take 1000)) false
          (decide (s.data.length > 1000)) [] [] none
  | GoValue.vptr t inner =>
      match inner with
      | none =>
          if depth > maxDepth then maxDepthVar name t
          else Variable.mk name t "nil" true false [] [] none
      | some g =>
          if depth > maxDepth then maxDepthVar name t
          else captureValue name g depth maxDepth
  | GoValue.vslice t elems =>
      if depth > maxDepth then maxDepthVar name t
      else
        let length := elems.length
        let maxElements := if length < 100 then length else 100
        Variable.mk name t ("[" ++ toString length ++ " items]") false
          (decide (length > 100)) []
          (captureElems elems maxElements 0 depth maxDepth)
          (some (Int.ofNat length))
  | GoValue.vmap t entries =>
      if depth > maxDepth then maxDepthVar name t
      else
        let nkeys := entries.length
        let maxKeys := if nkeys < 100 then nkeys else 100
        Variable.mk name t ("map[" ++ toString nkeys ++ "]") false
          (decide (nkeys > 100))
          (captureEntries entries maxKeys depth maxDepth) [] none
  | GoValue.vstruct t short fields =>
      if depth > maxDepth then maxDepthVar name t
      else
        Variable.mk name t ("<" ++ short ++ ">") false false
          (captureFields fields 100 depth maxDepth) [] none
  | GoValue.vother t kind =>
      if depth > maxDepth then maxDepthVar name t
      else Variable.mk name t ("<" ++ kind ++ ">") false false [] [] none
  termination_by sizeOf v

/-- The element loop of the slice/array branch: captures up to
`remaining` elements, naming the i-th `[i]`, at `depth+1`. -/
def captureElems (elems : List GoValue) (remaining idx : Nat)
    (depth maxDepth : Int) : List Variable :=
  match elems, remaining with
  | [], _ => []
  | _ :: _, 0 => []
  | e :: rest, Nat.succ r =>
      captureValue ("[" ++ toString idx ++ "]") e (depth + 1) maxDepth ::
        captureElems rest r (idx + 1) depth maxDepth
  termination_by sizeOf elems

/-- The key loop of the map branch: captures up to `remaining` entries at
`depth+1`, keyed by the string rendering of each key. -/
def captureEntries (entries : List (String × GoValue)) (remaining : Nat)
    (depth maxDepth : Int) : List (String × Variable) :=
  match entries, remaining with
  | [], _ => []
  | _ :: _, 0 => []
  | (k, v) :: rest, Nat.succ r =>
      (k, captureValue k v (depth + 1) maxDepth) ::
        captureEntries rest r depth maxDepth
  termination_by sizeOf entries

/-- The field loop of the struct branch: iterates over at most
`remaining` fields — unexported fields are skipped but still count
against the cap, as in the source's `i < t.NumField() && i < 100` —
capturing each exported field at `depth+1`. -/
def captureFields (fields : List (Bool × String × GoValue)) (remaining : Nat)
    (depth maxDepth : Int) : List (String × Variable) :=
  match fields, remaining with
  | [], _ => []
  | _ :: _, 0 => []
  | (exported, fname, fv) :: rest, Nat.succ r =>
      if exported then
        (fname, captureValue fname fv (depth + 1) maxDepth) ::
          captureFields rest r depth maxDepth
      else captureFields rest r depth maxDepth
  termination_by sizeOf fields

end

/-! ## Stack sampling (captureStackTrace, pkg/capture/capture.go) -/

/-- A frame as yielded by `runtime.CallersFrames`: the full function
name, the file path and the line number.  The program counters are an
effect of the live stack, so the embedded sampler takes the frame list
as a parameter, already positioned after the `skip` count. -/
structure RawFrame where
  function : String
  file : String
  line : Int
  deriving DecidableEq, Repr

/-- The `StackFrame` record of pkg/capture/capture.go. -/
structure StackFrame where
  methodName : String
  fileName : String
  filePath : String
  lineNumber : Int
  packageName : String
  isNative : Bool
  sourceAvailable : Bool
  deriving DecidableEq, Repr

/-- Whether the first list is an initial run of the second
(`strings.HasPrefix` at the character level). -/
def leadsWith : List Char → List Char → Bool
  | [], _ => true
  | _ :: _, [] => false
  | p :: ps, c :: cs => p == c && leadsWith ps cs

/-- `strings.HasPrefix s pat`. -/
def strStarts (s pat : String) : Bool := leadsWith pat.data s.data

/-- Whether the pattern occurs somewhere in the list. -/
def occursIn (pat : List Char) : List Char → Bool
  | [] => pat.isEmpty
  | c :: cs => leadsWith pat (c :: cs) || occursIn pat cs

/-- `strings.Contains s pat`. -/
def containsSubstr (s pat : String) : Bool := occursIn pat.data s.data

/-- `strings.Split` on a one-character separator, at the character
level; the result is always non-empty. -/
def splitChar (sep : Char) : List Char → List (List Char)
  | [] => [[]]
  | c :: rest =>
      match splitChar sep rest with
      | h :: t => if c == sep then [] :: h :: t else (c :: h) :: t
      | [] => if c == sep then [[], []] else [[c]]

/-- `strings.Split` of a string on a one-character separator. -/
def splitOnChar (s : String) (sep : Char) : List String :=
  (splitChar sep s.data).map String.mk

/-- `extractFunctionName`: last `/`-segment, then last `.`-segment when
the segment contains a dot. -/
def extractFunctionName (fullName : String) : String :=
  let parts := splitOnChar fullName '/'
  let last := parts.getLastD fullName
  let dotParts := splitOnChar last '.'
  if dotParts.length > 1 then dotParts.getLastD last else last

/-- `extractPackageName`: drop everything up to the last `/`, then keep
everything before the first `.`. -/
def extractPackageName (fullName : String) : String :=
  let t := (splitOnChar fullName '/').getLastD fullName
  (splitOnChar t '.').headD t

/-- `extractFileName`: everything after the last `/`. -/
def extractFileName (path : String) : String :=
  (splitOnChar path '/').getLastD path

/-- The frame record built inside the `captureStackTrace` loop. -/
def mkStackFrame (f : RawFrame) : StackFrame :=
  { methodName := extractFunctionName f.function
    fileName := extractFileName f.file
    filePath := f.file
    lineNumber := f.line
    packageName := extractPackageName f.function
    isNative := strStarts f.file "runtime/"
    sourceAvailable := !(containsSubstr f.file "/pkg/mod/") }

/-- The frame loop of `captureStackTrace`: skip frames whose function
name starts with `runtime.`, and break once 50 frames are collected
(`count` is `len(frames)` so far). -/
def captureLoop : List RawFrame → Nat → List StackFrame
  | [], _ => []
  | f :: rest, count =>
      if strStarts f.function "runtime." then captureLoop rest count
      else
        let sf := mkStackFrame f
        if count + 1 ≥ 50 then [sf]
        else sf :: captureLoop rest (count + 1)

/-- `captureStackTrace` of pkg/capture/capture.go: at most 50 program
counters are collected (`pcs := make([]uintptr, 50)`), then the frame
loop filters and converts them. -/
def captureStackTrace (raw : List RawFrame) : List StackFrame :=
  captureLoop (raw.take 50) 0

/-! ## SHA-256 (crypto/sha256, FIPS 180-4) over byte lists

Words are `Nat` reduced modulo `2^32` explicitly; bytes are `Nat < 256`.
-/

/-- Truncation to a 32-bit word. -/
def w32 (x : Nat) : Nat := x % 4294967296

/-- 32-bit right rotation. -/
def rotr32 (n x : Nat) : Nat := (x >>> n) ||| w32 (x <<< (32 - n))

def ch32 (x y z : Nat) : Nat := (x &&& y) ^^^ ((x ^^^ 4294967295) &&& z)

def maj32 (x y z : Nat) : Nat := (x &&& y) ^^^ (x &&& z) ^^^ (y &&& z)

def bigSig0 (x : Nat) : Nat := rotr32 2 x ^^^ rotr32 13 x ^^^ rotr32 22 x

def bigSig1 (x : Nat) : Nat := rotr32 6 x ^^^ rotr32 11 x ^^^ rotr32 25 x

def smallSig0 (x : Nat) : Nat := rotr32 7 x ^^^ rotr32 18 x ^^^ (x >>> 3)

def smallSig1 (x : Nat) : Nat := rotr32 17 x ^^^ rotr32 19 x ^^^ (x >>> 10)

/-- The 64 SHA-256 round constants of FIPS 180-4 (the fractional parts
of the cube roots of the first 64 primes), written in decimal. -/
def sha256K : List Nat :=
  [1116352408, 1899447441, 3049323471, 3921009573,
   961987163, 1508970993, 2453635748, 2870763221,
   3624381080, 310598401, 607225278, 1426881987,
   1925078388, 2162078206, 2614888103, 3248222580,
   3835390401, 4022224774, 264347078, 604807628,
   770255983, 1249150122, 1555081692, 1996064986,
   2554220882, 2821834349, 2952996808, 3210313671,
   3336571891, 3584528711, 113926993, 338241895,
   666307205, 773529912, 1294757372, 1396182291,
   1695183700, 1986661051, 2177026350, 2456956037,
   2730485921, 2820302411, 3259730800, 3345764771,
   3516065817, 3600352804, 4094571909, 275423344,
   430227734, 506948616, 659060556, 883997877,
   958139571, 1322822218, 1537002063, 1747873779,
   1955562222, 2024104815, 2227730452, 2361852424,
   2428436474, 2756734187, 3204031479, 3329325298]

/-- The SHA-256 working state (eight 32-bit words). -/
structure Sha8 where
  a : Nat
  b : Nat
  c : Nat
  d : Nat
  e : Nat
  f : Nat
  g : Nat
  h : Nat
  deriving DecidableEq, Repr

/-- The SHA-256 initial hash value of FIPS 180-4, in decimal. -/
def sha256Init : Sha8 :=
  ⟨1779033703, 3144134277, 1013904242, 2773480762,
   1359893119, 2600822924, 528734635, 1541459225⟩

/-- Big-endian 8-byte encoding of the bit length. -/
def lenBytes64 (n : Nat) : List Nat :=
  [(n >>> 56) % 256, (n >>> 48) % 256, (n >>> 40) % 256, (n >>> 32) % 256,
   (n >>> 24) % 256, (n >>> 16) % 256, (n >>> 8) % 256, n % 256]

/-- FIPS 180-4 padding: append `0x80`, zero bytes to 56 mod 64, then the
64-bit big-endian bit length. -/
def sha256Pad (msg : List Nat) : List Nat :=
  let l := msg.length
  let z := (119 - (l % 64)) % 64
  msg ++ [128] ++ List.replicate z 0 ++ lenBytes64 (l * 8)

/-- Big-endian packing of bytes into 32-bit words. -/
def bytesToWords : List Nat → List Nat
  | b1 :: b2 :: b3 :: b4 :: rest =>
      (b1 * 16777216 + b2 * 65536 + b3 * 256 + b4) :: bytesToWords rest
  | _ => []

/-- Split a word list into 16-word blocks; a padded message is always a
whole number of blocks, so the partial-tail fallback is never hit. -/
def chunks16 : List Nat → List (List Nat)
  | w1 :: w2 :: w3 :: w4 :: w5 :: w6 :: w7 :: w8 ::
    w9 :: w10 :: w11 :: w12 :: w13 :: w14 :: w15 :: w16 :: rest =>
      [w1, w2, w3, w4, w5, w6, w7, w8, w9, w10, w11, w12, w13, w14, w15, w16] ::
        chunks16 rest
  | _ => []

/-- One step of the message-schedule extension, appending
`smallSig1 W[t-2] + W[t-7] + smallSig0 W[t-15] + W[t-16]`. -/
def extendStep (ws : List Nat) : List Nat :=
  let n := ws.length
  ws ++ [w32 (smallSig1 (ws.getD (n - 2) 0) + ws.getD (n - 7) 0 +
              smallSig0 (ws.getD (n - 15) 0) + ws.getD (n - 16) 0)]

/-- Iterate a function `n` times. -/
def iterN {α : Type} (f : α → α) : Nat → α → α
  | 0, a => a
  | Nat.succ n, a => iterN f n (f a)

/-- Extend a 16-word block to the 64-word message schedule. -/
def extendWords (ws : List Nat) : List Nat := iterN extendStep 48 ws

/-- One SHA-256 compression round. -/
def compressStep (s : Sha8) (kw : Nat × Nat) : Sha8 :=
  let t1 := w32 (s.h + bigSig1 s.e + ch32 s.e s.f s.g + kw.1 + kw.2)
  let t2 := w32 (bigSig0 s.a + maj32 s.a s.b s.c)
  ⟨w32 (t1 + t2), s.a, s.b, s.c, w32 (s.d + t1), s.e, s.f, s.g⟩

/-- Process one 16-word block: run 64 rounds and add into the state. -/
def processChunk (s : Sha8) (chunk : List Nat) : Sha8 :=
  let t := (sha256K.zip (extendWords chunk)).foldl compressStep s
  ⟨w32 (s.a + t.a), w32 (s.b + t.b), w32 (s.c + t.c), w32 (s.d + t.d),
   w32 (s.e + t.e), w32 (s.f + t.f), w32 (s.g + t.g), w32 (s.h + t.h)⟩

/-- Big-endian bytes of one 32-bit word. -/
def wordBytes (w : Nat) : List Nat :=
  [(w >>> 24) % 256, (w >>> 16) % 256, (w >>> 8) % 256, w % 256]

/-- `sha256.Sum256`: the 32-byte SHA-256 digest of a byte list. -/
def sha256Bytes (msg : List Nat) : List Nat :=
  let t := (chunks16 (bytesToWords (sha256Pad msg))).foldl processChunk sha256Init
  wordBytes t.a ++ wordBytes t.b ++ wordBytes t.c ++ wordBytes t.d ++
    wordBytes t.e ++ wordBytes t.f ++ wordBytes t.g ++ wordBytes t.h

/-- Lower-case hex digit. -/
def hexDigit (n : Nat) : Char :=
  if n < 10 then Char.ofNat (48 + n) else Char.ofNat (87 + n)

/-- Two-digit lower-case hex of one byte. -/
def byteHex (b : Nat) : String := String.mk [hexDigit (b / 16), hexDigit (b % 16)]

/-- `hex.EncodeToString`. -/
def hexEncode : List Nat → String
  | [] => ""
  | b :: bs => byteHex b ++ hexEncode bs

/-- The bytes of a string; the keys hashed by the fingerprinter are
ASCII, where this agrees with Go's UTF-8 bytes. -/
def strBytes (s : String) : List Nat := s.data.map Char.toNat

/-! ## Fingerprinting (calculateFingerprint, pkg/capture/capture.go) -/

/-- The frame loop of `calculateFingerprint`: `added` counts accepted
frames, the loop breaks at 5, native frames are skipped, and each
accepted frame contributes `method:line`. -/
def fingerprintParts : List StackFrame → Nat → List String
  | [], _ => []
  | f :: rest, added =>
      if added ≥ 5 then []
      else if f.isNative then fingerprintParts rest added
      else (f.methodName ++ ":" ++ toString f.lineNumber) ::
        fingerprintParts rest (added + 1)

/-- `calculateFingerprint` of pkg/capture/capture.go; the source derives
the first part with `getErrorType(err)`, passed here as the already
extracted type name.  The parts are joined with `:`, hashed with
SHA-256, and the first 8 digest bytes are hex-encoded. -/
def calculateFingerprint (errorType : String) (st : List StackFrame) : String :=
  let parts := errorType :: fingerprintParts st 0
  hexEncode ((sha256Bytes (strBytes (String.intercalate ":" parts))).take 8)

/-! ## Error chain extraction and capture assembly -/

/-- A Go `error` value as the extractors see it: `typeName` is
`getErrorType(err)` (the dereferenced `reflect` type name), `message` is
`err.Error()`; `structFields` is `some` exactly when the error, behind
at most one non-nil pointer, is a struct (the `extractErrorFields`
precondition); the three chain accessors model the optional
`Unwrap() error`, `Unwrap() []error` and `Cause() error` interfaces,
with `none`/absence when unimplemented. -/
inductive GoError where
  | mk (typeName message : String)
       (structFields : Option (List (Bool × String × GoValue)))
       (unwrapOne : Option GoError)
       (unwrapMany : Option (List GoError))
       (cause : Option GoError) : GoError

def GoError.typeName : GoError → String
  | .mk t _ _ _ _ _ => t

def GoError.message : GoError → String
  | .mk _ m _ _ _ _ => m

def GoError.structFields : GoError → Option (List (Bool × String × GoValue))
  | .mk _ _ f _ _ _ => f

def GoError.unwrapOne : GoError → Option GoError
  | .mk _ _ _ u _ _ => u

def GoError.unwrapMany : GoError → Option (List GoError)
  | .mk _ _ _ _ u _ => u

def GoError.cause : GoError → Option GoError
  | .mk _ _ _ _ _ c => c

/-- The field loop of `extractErrorFields`: at most 50 fields are
visited (`i < t.NumField() && i < 50`, unexported fields counting but
skipped), each exported field captured at depth 0 under the name
`err.<Field>`. -/
def extractFieldsLoop (vars : List (String × Variable))
    (fields : List (Bool × String × GoValue)) (remaining : Nat)
    (maxDepth : Int) : List (String × Variable) :=
  match fields, remaining with
  | [], _ => vars
  | _ :: _, 0 => vars
  | (exported, fname, fv) :: rest, Nat.succ r =>
      if exported then
        extractFieldsLoop
          (assocSet vars ("err." ++ fname)
            (captureValue ("err." ++ fname) fv 0 maxDepth))
          rest r maxDepth
      else extractFieldsLoop vars rest r maxDepth

/-- `extractErrorFields` of pkg/capture/capture.go: a no-op unless the
error (behind at most one non-nil pointer) is a struct. -/
def extractErrorFields (err : GoError) (vars : List (String × Variable))
    (maxDepth : Int) : List (String × Variable) :=
  match err.structFields with
  | none => vars
  | some fields => extractFieldsLoop vars fields 50 maxDepth

/-- A type-and-message-only `Variable` entry, as built for
`wrapped_error`, the `wrapped_errors` elements and `cause`. -/
def errEntryVar (name : String) (e : GoError) : Variable :=
  Variable.mk name e.typeName e.message false false [] [] none

/-- The indexed element list of `wrapped_errors` (at most 10 entries). -/
def wrappedElems : List GoError → Nat → List Variable
  | [], _ => []
  | _ :: _, 0 => []
  | e :: rest, Nat.succ r =>
      errEntryVar ("[" ++ toString (9 - r) ++ "]") e :: wrappedElems rest r

/-- `extractWrappedErrors` of pkg/capture/capture.go: the single-wrap,
multi-wrap and legacy-cause conventions, checked independently in the
source's order.  A single wrapped error additionally has its fields
extracted (flattened into the same map); the multi-wrap entry records up
to 10 inner errors with the true count. -/
def extractWrappedErrors (err : GoError) (vars : List (String × Variable))
    (maxDepth : Int) : List (String × Variable) :=
  let v1 :=
    match err.unwrapOne with
    | some inner =>
        extractErrorFields inner
          (assocSet vars "wrapped_error" (errEntryVar "wrapped_error" inner))
          maxDepth
    | none => vars
  let v2 :=
    match err.unwrapMany with
    | some errors =>
        if errors.length > 0 then
          assocSet v1 "wrapped_errors"
            (Variable.mk "wrapped_errors" "[]error"
              ("[" ++ toString errors.length ++ " errors]") false false []
              (wrappedElems errors 10) (some (Int.ofNat errors.length)))
        else v1
    | none => v1
  match err.cause with
  | some c => assocSet v2 "cause" (errEntryVar "cause" c)
  | none => v2

/-- The `ExceptionCapture` record; the agent/environment/runtime fields
are filled by the caller after assembly and stay at their zero values
here. -/
structure ExceptionCapture where
  id : String
  exceptionType : String
  message : String
  fingerprint : String
  stackTrace : List StackFrame
  localVariables : List (String × Variable)
  context : List (String × GoValue)
  capturedAt : String
  deriving Repr

/-- The context/local-variable seeding loop of `CaptureError`: each
caller-supplied context entry is captured at depth 0. -/
def seedContextVars (ctx : List (String × GoValue)) (maxDepth : Int) :
    List (String × Variable) :=
  ctx.foldl (fun vars p => assocSet vars p.1 (captureValue p.1 p.2 0 maxDepth)) []

/-- `CaptureError` of pkg/capture/capture.go.  The live stack, the
generated UUID and the wall-clock timestamp are effects, passed in as
parameters (`rawStack` is the frame list after the skip count of 3).
The embedded assembler is a total function: every representable value
shape yields a node, which is the source's no-raise contract. -/
def CaptureError (err : GoError) (maxDepth : Int)
    (ctx : List (String × GoValue)) (rawStack : List RawFrame)
    (id capturedAt : String) : ExceptionCapture :=
  let stackTrace := captureStackTrace rawStack
  let fingerprint := calculateFingerprint err.typeName stackTrace
  let vars0 := seedContextVars ctx maxDepth
  let vars1 := extractErrorFields err vars0 maxDepth
  let vars2 := extractWrappedErrors err vars1 maxDepth
  { id := id
    exceptionType := err.typeName
    message := err.message
    fingerprint := fingerprint
    stackTrace := stackTrace
    localVariables := vars2
    context := ctx
    capturedAt := capturedAt }

/-! ## Connection manager (pkg/transport, src/unnamed/part_003)

Socket I/O is an effect: the connect loop consumes a list of attempt
outcomes (`true` = the dial succeeded), and emits the sleeps it
performs.  The `done` channel is modelled by the `doneClosed` flag,
checked where the source selects on it. -/

/-- A loosely typed JSON payload, as handled by `handleError`. -/
inductive JVal where
  | jstr (s : String) : JVal
  | jnum (n : Int) : JVal
  | jobj (fields : List (String × JVal)) : JVal
  | jnull : JVal

/-- `payloadMap[k].(string)`: the string at key `k`, or `""` when the
key is absent or not a string. -/
def jlookupStr (fields : List (String × JVal)) (k : String) : String :=
  match fields.find? (fun p => p.1 == k) with
  | some (_, JVal.jstr s) => s
  | _ => ""

/-- The `Connection` state of pkg/transport: the socket handle is
`hasConn`, the closed `done` channel is `doneClosed`, and the buffered
outbound channel (capacity 100) is `messageQueue` with its oldest entry
at the head. -/
structure ConnMgr where
  url : String
  apiKey : String
  debug : Bool
  hasConn : Bool
  connected : Bool
  authenticated : Bool
  doneClosed : Bool
  reconnectAttempts : Nat
  maxReconnectAttempts : Nat
  reconnectDelay : Int
  messageQueue : List String
  deriving DecidableEq, Repr

/-- `NewConnection`: disconnected, 10 attempts maximum, base delay one
second (`time.Second` = 10^9 nanoseconds), empty queue. -/
def NewConnection (url apiKey : String) (debug : Bool) : ConnMgr :=
  { url := url
    apiKey := apiKey
    debug := debug
    hasConn := false
    connected := false
    authenticated := false
    doneClosed := false
    reconnectAttempts := 0
    maxReconnectAttempts := 10
    reconnectDelay := 1000000000
    messageQueue := [] }

/-- `Connection.send` after a successful `json.Marshal`: enqueue only
while connected and authenticated; a non-blocking send, with a full
queue dropping its single oldest entry to admit the new one. -/
def send (c : ConnMgr) (data : String) : ConnMgr :=
  if c.connected && c.authenticated then
    if c.messageQueue.length < 100 then
      { c with messageQueue := c.messageQueue ++ [data] }
    else
      { c with messageQueue := c.messageQueue.drop 1 ++ [data] }
  else c

/-- `Connection.Disconnect`: close the `done` channel, close and drop
the socket, clear the state flags. -/
def Disconnect (c : ConnMgr) : ConnMgr :=
  { c with doneClosed := true, hasConn := false,
           connected := false, authenticated := false }

/-- `Connection.handleError`: a non-object payload is ignored; the codes
`auth_error` and `invalid_api_key` zero the reconnect ceiling and force
an immediate disconnect. -/
def handleError (c : ConnMgr) (payload : JVal) : ConnMgr :=
  match payload with
  | JVal.jobj fields =>
      let code := jlookupStr fields "code"
      if code == "auth_error" || code == "invalid_api_key" then
        Disconnect { c with maxReconnectAttempts := 0 }
      else c
  | _ => c

/-- `base_delay * 2^(attempt-1)`, capped at 60 seconds — the sleep the
connect loop performs after failed attempt number `attempt`. -/
def backoffDelay (base : Int) (attempt : Nat) : Int :=
  let d := base * (2 : Int) ^ (attempt - 1)
  if d > 60000000000 then 60000000000 else d

/-- How a `Connect` invocation ended (relative to the supplied outcome
trace). -/
inductive LoopExit where
  | shutdown : LoopExit
  | maxAttempts : LoopExit
  | traceEnded : LoopExit
  deriving DecidableEq, Repr

/-- `Connection.Connect`: the reconnect loop, driven by the outcome of
each dial.  Returns the final state, the sleeps performed, the number of
dial attempts made, and why the loop ended.  A successful dial sets the
socket flags and resets the attempt counter, and the message loop then
runs until the socket drops (its exit clears `connected` and
`authenticated`), after which the outer loop re-enters; a failure
increments the counter, stops for good once it exceeds the ceiling, and
otherwise sleeps the capped exponential backoff. -/
def connectLoop (c : ConnMgr) : List Bool → ConnMgr × List Int × Nat × LoopExit
  | [] =>
      if c.doneClosed then (c, [], 0, LoopExit.shutdown)
      else (c, [], 0, LoopExit.traceEnded)
  | outcome :: rest =>
      if c.doneClosed then (c, [], 0, LoopExit.shutdown)
      else if outcome then
        let c1 := { c with hasConn := true, connected := true,
                           reconnectAttempts := 0 }
        let c2 := { c1 with connected := false, authenticated := false }
        let (c3, ds, n, ex) := connectLoop c2 rest
        (c3, ds, n + 1, ex)
      else
        let attempts := c.reconnectAttempts + 1
        let c1 := { c with reconnectAttempts := attempts }
        if attempts > c1.maxReconnectAttempts then
          (c1, [], 1, LoopExit.maxAttempts)
        else
          let d := backoffDelay c1.reconnectDelay attempts
          let (c2, ds, n, ex) := connectLoop c1 rest
          (c2, d :: ds, n + 1, ex)

/-! ## Breakpoint manager (pkg/breakpoint, src/unnamed/part_001) -/

/-- The `BreakpointInfo` record of pkg/breakpoint. -/
structure BreakpointInfo where
  id : String
  filePath : String
  lineNumber : Int
  condition : String
  maxHits : Int
  hitCount : Int
  createdAt : Int
  deriving DecidableEq, Repr

/-- The breakpoint `Manager` state: the registry, and the shared rate
limiter's counter and window start (a time in nanoseconds). -/
structure BPManager where
  breakpoints : List (String × BreakpointInfo)
  captureCount : Int
  captureWindowStart : Int
  deriving DecidableEq, Repr

/-- `maxCapturesPerSecond` of pkg/breakpoint. -/
def maxCapturesPerSecond : Int := 50

/-- `NewManager`: empty registry, window starting now. -/
def NewManager (now : Int) : BPManager :=
  { breakpoints := [], captureCount := 0, captureWindowStart := now }

/-- `Manager.SetBreakpoint`: clamp `maxHits` into [1, 50] and (re)create
the registry entry — `HitCount` starts at the zero value. -/
def SetBreakpoint (m : BPManager) (id filePath : String) (lineNumber : Int)
    (condition : String) (maxHits : Int) (now : Int) : BPManager :=
  let mh1 := if maxHits < 1 then 1 else maxHits
  let mh2 := if mh1 > 50 then 50 else mh1
  { m with breakpoints :=
      assocSet m.breakpoints id ⟨id, filePath, lineNumber, condition, mh2, 0, now⟩ }

/-- `Manager.RemoveBreakpoint`. -/
def RemoveBreakpoint (m : BPManager) (id : String) : BPManager :=
  { m with breakpoints := m.breakpoints.filter (fun p => !(p.1 == id)) }

/-- `Manager.rateLimitOk`: reset the window lazily once at least one
second has elapsed since its start, then admit (incrementing the
counter) only while the counter is below `maxCapturesPerSecond`. -/
def rateLimitOk (m : BPManager) (now : Int) : BPManager × Bool :=
  let m1 :=
    if now - m.captureWindowStart ≥ 1000000000 then
      { m with captureCount := 0, captureWindowStart := now }
    else m
  if m1.captureCount ≥ maxCapturesPerSecond then (m1, false)
  else ({ m1 with captureCount := m1.captureCount + 1 }, true)

/-- A frame map built by the probe manager's own `buildStackTrace`
(`method_name` is the undemangled `frame.Function`; `is_native` is
`frame.File == ""`). -/
structure ProbeFrame where
  methodName : String
  filePath : String
  fileName : String
  lineNumber : Int
  isNative : Bool
  deriving DecidableEq, Repr

/-- `filepath.Base`, for slash-separated paths: the last non-empty
segment, `/` for an all-slash path, `.` for the empty path. -/
def filepathBase (p : String) : String :=
  if p == "" then "."
  else
    match ((splitOnChar p '/').filter (fun s => !(s == ""))).getLast? with
    | some s => s
    | none => "/"

/-- One frame of the probe manager's `buildStackTrace` loop. -/
def mkProbeFrame (f : RawFrame) : ProbeFrame :=
  { methodName := f.function
    filePath := f.file
    fileName := if f.file == "" then "" else filepathBase f.file
    lineNumber := f.line
    isNative := f.file == "" }

/-- `Manager.buildStackTrace`: 50 program counters at most (`var pcs
[50]uintptr`), then a do-while over `CallersFrames` that appends every
frame — with no runtime filter and no further cap; on an empty stack the
first `Next` still yields the zero frame, which the loop appends before
seeing `!more`. -/
def buildStackTrace (raw : List RawFrame) : List ProbeFrame :=
  match raw.take 50 with
  | [] => [mkProbeFrame { function := "", file := "", line := 0 }]
  | l => l.map mkProbeFrame

/-- The payload forwarded on a breakpoint hit (`captured_at` epoch
milliseconds, location, stack sample, current hit count). -/
structure HitPayload where
  capturedAt : Int
  filePath : String
  lineNumber : Int
  stackTrace : List ProbeFrame
  hitCount : Int
  deriving DecidableEq, Repr

/-- `Manager.Hit`: a no-op when the id is unregistered, the hit ceiling
is reached, or the shared rate limiter rejects; otherwise the hit count
is incremented and a payload is forwarded through the sender keyed by
the probe id (the `SendBreakpointHit` call is modelled as the returned
pair).  The source reads the clock twice (rate limiter, `UnixMilli`);
both reads are the single parameter `now` in nanoseconds. -/
def Hit (m : BPManager) (id : String) (now : Int) (rawStack : List RawFrame) :
    BPManager × Option (String × HitPayload) :=
  match assocGet m.breakpoints id with
  | none => (m, none)
  | some bp =>
      if bp.hitCount ≥ bp.maxHits then (m, none)
      else
        let r := rateLimitOk m now
        if !r.2 then (r.1, none)
        else
          let bp2 := { bp with hitCount := bp.hitCount + 1 }
          let m2 := { r.1 with breakpoints := assocSet r.1.breakpoints id bp2 }
          (m2, some (bp.id,
            { capturedAt := now / 1000000
              filePath := bp.filePath
              lineNumber := bp.lineNumber
              stackTrace := buildStackTrace rawStack
              hitCount := bp2.hitCount }))

/-- A sequence of `Hit` calls (probe id and clock reading each),
collecting the forwarded payloads in order. -/
def runHits (m : BPManager) : List (String × Int) → BPManager × List (String × HitPayload)
  | [] => (m, [])
  | (id, now) :: rest =>
      let r := Hit m id now []
      let rr := runHits r.1 rest
      (rr.1, match r.2 with
             | some x => x :: rr.2
             | none => rr.2)

/-! ## Specification-side definitions and concrete fixtures -/

/-- The fingerprint key as the specification words it: the error's type
name concatenated with up to the first 5 non-native frames, each
formatted as `method:line`, all joined by `:`.  Stated from the spec's
words, to be compared with the source-derived `calculateFingerprint`. -/
def fingerprintKey (errorType : String) (st : List StackFrame) : String :=
  String.intercalate ":"
    (errorType ::
      ((st.filter (fun f => !f.isNative)).take 5).map
        (fun f => f.methodName ++ ":" ++ toString f.lineNumber))

/-- A `Variable` node is the max-depth placeholder iff it carries the
placeholder value, the truncation mark, and no children of either kind
(the terminal, no-further-descent shape). -/
def isMaxDepthPlaceholder (x : Variable) : Bool :=
  x.value == "<max depth exceeded>" && x.isTruncated &&
    x.children.isEmpty && x.arrayElements.isEmpty

/-- The single non-native application frame of the end-to-end
fingerprint example. -/
def fetchOrderFrame : StackFrame :=
  { methodName := "FetchOrder"
    fileName := "orders.go"
    filePath := "/app/orders.go"
    lineNumber := 42
    packageName := "main"
    isNative := false
    sourceAvailable := true }

/-- A native frame (inside the Go runtime's source tree) of the
fingerprint determinism example. -/
def nativeFrame : StackFrame :=
  { methodName := "goexit"
    fileName := "asm_amd64.s"
    filePath := "runtime/asm_amd64.s"
    lineNumber := 1650
    packageName := "runtime"
    isNative := true
    sourceAvailable := true }

/-- A fresh connection fixture. -/
def connFix : ConnMgr := NewConnection "wss://backend/agent" "key-123" false

/-- An authenticated connection holding a full outbound queue. -/
def connFull : ConnMgr :=
  { connFix with connected := true, authenticated := true,
                 messageQueue := List.replicate 100 "old" }

/-- A manager with probe `bp1` armed at `app.go:10`, `maxHits = 3`. -/
def bpFix : BPManager := SetBreakpoint (NewManager 0) "bp1" "app.go" 10 "" 3 0

/-- A manager with probe `rt` armed with `maxHits = 1`. -/
def bpRt : BPManager := SetBreakpoint (NewManager 0) "rt" "x.go" 1 "" 1 0

/-- An application raw frame. -/
def appRaw : RawFrame := { function := "main.work", file := "/app/app.go", line := 10 }

/-- A raw frame attributable to the Go runtime. -/
def runtimeRaw : RawFrame := { function := "runtime.main", file := "runtime/proc.go", line := 250 }

/-- First trigger of `bp1` on the `bpFix` manager. -/
def bpHit1 : BPManager × Option (String × HitPayload) := Hit bpFix "bp1" 0 [appRaw]

/-- Second trigger of `bp1`. -/
def bpHit2 : BPManager × Option (String × HitPayload) := Hit bpHit1.1 "bp1" 0 [appRaw]

/-- Third trigger of `bp1`. -/
def bpHit3 : BPManager × Option (String × HitPayload) := Hit bpHit2.1 "bp1" 0 [appRaw]

/-- Fourth trigger of `bp1` (beyond `maxHits = 3`). -/
def bpHit4 : BPManager × Option (String × HitPayload) := Hit bpHit3.1 "bp1" 0 [appRaw]

/-- A context fixture for the capture assembler. -/
def ctxFix : List (String × GoValue) := [("user", GoValue.vscalar "string" "alice")]

/-- An error fixture with one exported struct field. -/
def errFix : GoError :=
  GoError.mk "OrderNotFoundError" "order not found"
    (some [(true, "OrderID", GoValue.vscalar "int" "7")]) none none none

/-! # Theorems -/

/-- SHA-256 reference test vector: the empty message. -/
theorem sha256_vector_empty :
    hexEncode (sha256Bytes []) =
      "e3b0c44298fc1c149afbf4c8996fb92427ae41e4649b934ca495991b7852b855" := by
  decide

/-- SHA-256 reference test vector: the three-byte message `abc`. -/
theorem sha256_vector_abc :
    hexEncode (sha256Bytes (strBytes "abc")) =
      "ba7816bf8f01cfea414140de5dae2223b00361a396177a9cb410ff61f20015ad" := by
  decide

/-- C10: capturing an absent (nil) value yields the nil leaf node
`{type "nil", value "nil", isNull true, not truncated}` at every depth,
even beyond `maxDepth`: the nil check precedes the depth guard, so a nil
leaf is never replaced by the max-depth placeholder. -/
theorem captureValue_nil_priority (name : String) (depth maxDepth : Int) :
    captureValue name GoValue.vnil depth maxDepth =
      Variable.mk name "nil" "nil" true false [] [] none := by
  simp [captureValue]

/-- C5: an outbound message is enqueued only while the connection is
connected and authenticated; enqueuing onto a full queue of 100 discards
exactly the oldest entry and retains the new message, leaving the size
at 100; the embedded `send` is a total function (the enqueue never
blocks the caller). -/
theorem send_queue_spec (c : ConnMgr) (data : String) :
    ((c.connected && c.authenticated) = false → send c data = c) ∧
    (c.messageQueue.length ≤ 100 → (send c data).messageQueue.length ≤ 100) ∧
    ((c.connected && c.authenticated) = true → c.messageQueue.length = 100 →
      (send c data).messageQueue = c.messageQueue.drop 1 ++ [data] ∧
      (send c data).messageQueue.length = 100 ∧
      (send c data).messageQueue.getLast? = some data) := by
  refine ⟨fun h => by simp [send, h], ?_, fun h1 h2 => ?_⟩
  · intro hle
    by_cases h : (c.connected && c.authenticated) = true
    · by_cases hq : c.messageQueue.length < 100
      · simp [send, h, hq]
        omega
      · simp [send, h, hq]
        omega
    · simp [send, Bool.not_eq_true _ ▸ h]
      · exact hle
  · have hq : ¬ c.messageQueue.length < 100 := by omega
    refine ⟨by simp [send, h1, hq], ?_, ?_⟩
    · simp [send, h1, hq]
      omega
    · simp [send, h1, hq]

/-- C5 witness: from a full queue of 100 with an authenticated
connection, the 101st message evicts the oldest and lands last, with the
size staying at 100. -/
theorem send_queue_wit :
    (send connFull "new").messageQueue =
        (List.replicate 100 "old").drop 1 ++ ["new"] ∧
    (send connFull "new").messageQueue.length = 100 :=
  ⟨((send_queue_spec connFull "new").2.2 (by decide) (by simp [connFull])).1,
   ((send_queue_spec connFull "new").2.2 (by decide) (by simp [connFull])).2.1⟩

/-- C6: handling an `error` envelope whose payload code is `auth_error`
or `invalid_api_key` closes the `done` channel, zeroes the reconnect
ceiling and immediately tears the connection down, after which the
connect loop performs no further attempts on any outcome trace. -/
theorem fatal_auth_error_disables_reconnect (c : ConnMgr)
    (fields : List (String × JVal))
    (hcode : jlookupStr fields "code" = "auth_error" ∨
             jlookupStr fields "code" = "invalid_api_key") :
    (handleError c (JVal.jobj fields)).doneClosed = true ∧
    (handleError c (JVal.jobj fields)).maxReconnectAttempts = 0 ∧
    (handleError c (JVal.jobj fields)).hasConn = false ∧
    (handleError c (JVal.jobj fields)).connected = false ∧
    (handleError c (JVal.jobj fields)).authenticated = false ∧
    ∀ outcomes, connectLoop (handleError c (JVal.jobj fields)) outcomes =
      (handleError c (JVal.jobj fields), [], 0, LoopExit.shutdown) := by
  have hif : (jlookupStr fields "code" == "auth_error" ||
              jlookupStr fields "code" == "invalid_api_key") = true := by
    rcases hcode with h | h <;> simp [h]
  refine ⟨by simp [handleError, hif, Disconnect], by simp [handleError, hif, Disconnect],
         by simp [handleError, hif, Disconnect], by simp [handleError, hif, Disconnect],
         by simp [handleError, hif, Disconnect], ?_⟩
  intro outcomes
  cases outcomes <;> simp [handleError, hif, Disconnect, connectLoop]

/-- C6 witness: an `invalid_api_key` error on the fresh fixture closes
`done` and the connect loop exits at once on a two-failure trace. -/
theorem fatal_auth_wit :
    (handleError connFix (JVal.jobj [("code", JVal.jstr "invalid_api_key")])).doneClosed = true ∧
    connectLoop (handleError connFix (JVal.jobj [("code", JVal.jstr "invalid_api_key")]))
        [false, false] =
      (handleError connFix (JVal.jobj [("code", JVal.jstr "invalid_api_key")]),
       [], 0, LoopExit.shutdown) :=
  ⟨(fatal_auth_error_disables_reconnect connFix _ (Or.inr (by decide))).1,
   (fatal_auth_error_disables_reconnect connFix _ (Or.inr (by decide))).2.2.2.2.2 [false, false]⟩

/-- C4: in the connect loop with base delay 1s, three consecutive
failures wait 1s, 2s, 4s; the wait is `base * 2^(attempt-1)` for
attempts 1–6 and is capped at 60s from attempt 7 on; a successful
connection resets the attempt counter to zero; and once the counter
exceeds the ceiling of 10 the loop stops for good, consuming no further
outcomes of the trace. -/
theorem connect_backoff_spec :
    (connectLoop connFix [false, false, false] =
      ({ connFix with reconnectAttempts := 3 },
       [1000000000, 2000000000, 4000000000], 3, LoopExit.traceEnded)) ∧
    (∀ n : Nat, 1 ≤ n → n ≤ 6 →
      backoffDelay 1000000000 n = 1000000000 * (2 : Int) ^ (n - 1)) ∧
    (∀ n : Nat, 7 ≤ n → backoffDelay 1000000000 n = 60000000000) ∧
    (∀ c : ConnMgr, c.doneClosed = false →
      ((connectLoop c [true]).1).reconnectAttempts = 0) ∧
    (∀ rest : List Bool,
      connectLoop connFix (List.replicate 11 false ++ rest) =
        ({ connFix with reconnectAttempts := 11 },
         [1000000000, 2000000000, 4000000000, 8000000000, 16000000000,
          32000000000, 60000000000, 60000000000, 60000000000, 60000000000],
         11, LoopExit.maxAttempts)) := by
  refine ⟨by decide, ?_, ?_, ?_, ?_⟩
  · intro n h1 h6
    have h2 : (2 : Int) ^ (n - 1) ≤ 2 ^ 5 := pow_le_pow_right₀ (by norm_num) (by omega)
    have h3 : (1000000000 : Int) * 2 ^ (n - 1) ≤ 1000000000 * 2 ^ 5 :=
      mul_le_mul_of_nonneg_left h2 (by norm_num)
    simp only [backoffDelay]
    rw [if_neg (by norm_num at h3 ⊢; omega)]
  · intro n h7
    have h2 : (2 : Int) ^ 6 ≤ 2 ^ (n - 1) := pow_le_pow_right₀ (by norm_num) (by omega)
    have h3 : (1000000000 : Int) * 2 ^ 6 ≤ 1000000000 * 2 ^ (n - 1) :=
      mul_le_mul_of_nonneg_left h2 (by norm_num)
    simp only [backoffDelay]
    rw [if_pos (by norm_num at h3 ⊢; omega)]
  · intro c h
    simp [connectLoop, h]
  · intro rest
    simp [List.replicate, connectLoop, connFix, NewConnection, backoffDelay]

/-- C4 witness: attempt 8's wait is capped at 60s, and a successful
dial on the fresh fixture resets the attempt counter to zero. -/
theorem connect_backoff_wit :
    backoffDelay 1000000000 8 = 60000000000 ∧
    ((connectLoop connFix [true]).1).reconnectAttempts = 0 :=
  ⟨connect_backoff_spec.2.2.1 8 (by norm_num),
   connect_backoff_spec.2.2.2.1 connFix (by decide)⟩

/-- The fingerprint frame loop equals filtering out native frames,
keeping the first `5 - added`, and formatting each as `method:line`. -/
theorem fingerprintParts_take (st : List StackFrame) (a : Nat) (ha : a ≤ 5) :
    fingerprintParts st a =
      ((st.filter (fun f => !f.isNative)).take (5 - a)).map
        (fun f => f.methodName ++ ":" ++ toString f.lineNumber) := by
  induction st generalizing a with
  | nil => simp [fingerprintParts]
  | cons f rest ih =>
    by_cases h5 : 5 ≤ a
    · have he : a = 5 := le_antisymm ha h5
      subst he
      simp [fingerprintParts]
    · push_neg at h5
      by_cases hn : f.isNative
      · simp [fingerprintParts, Nat.not_le.mpr h5, hn, ih a ha]
      · have hs : 5 - a = (5 - (a + 1)) + 1 := by omega
        simp [fingerprintParts, Nat.not_le.mpr h5, hn, ih (a + 1) (by omega), hs]

/-- Two-character hex rendering of a byte. -/
theorem byteHex_length (b : Nat) : (byteHex b).length = 2 := rfl

/-- Hex encoding doubles the byte count. -/
theorem hexEncode_length (bs : List Nat) : (hexEncode bs).length = 2 * bs.length := by
  induction bs with
  | nil => rfl
  | cons b rest ih =>
    simp [hexEncode, String.length_append, byteHex_length, ih]
    omega

/-- A SHA-256 digest is 32 bytes long. -/
theorem sha256Bytes_length (msg : List Nat) : (sha256Bytes msg).length = 32 := by
  simp [sha256Bytes, wordBytes]

/-- C2: the fingerprint is the 16-hex-character (8-byte) truncation of
the SHA-256 digest of the error's type name joined by `:` with up to the
first 5 non-native frames formatted `method:line` (the spec-side
`fingerprintKey`); it is always 16 characters; it is determined by the
type name and the leading non-native `method:line` pairs; and for an
`OrderNotFoundError` whose only non-native frame is `FetchOrder` at line
42 the hashed key is the literal `OrderNotFoundError:FetchOrder:42`. -/
theorem calculateFingerprint_spec (etype : String) (st st2 : List StackFrame) :
    (calculateFingerprint etype st =
      hexEncode ((sha256Bytes (strBytes (fingerprintKey etype st))).take 8)) ∧
    ((calculateFingerprint etype st).length = 16) ∧
    (((st.filter (fun f => !f.isNative)).take 5).map
        (fun f => f.methodName ++ ":" ++ toString f.lineNumber) =
      ((st2.filter (fun f => !f.isNative)).take 5).map
        (fun f => f.methodName ++ ":" ++ toString f.lineNumber) →
      calculateFingerprint etype st = calculateFingerprint etype st2) ∧
    (fingerprintKey "OrderNotFoundError" [fetchOrderFrame] =
      "OrderNotFoundError:FetchOrder:42") ∧
    (calculateFingerprint "OrderNotFoundError" [fetchOrderFrame] =
      hexEncode ((sha256Bytes (strBytes "OrderNotFoundError:FetchOrder:42")).take 8)) := by
  have hkey : ∀ s : List StackFrame,
      calculateFingerprint etype s =
        hexEncode ((sha256Bytes (strBytes (fingerprintKey etype s))).take 8) := by
    intro s
    simp [calculateFingerprint, fingerprintKey, fingerprintParts_take s 0 (by omega)]
  refine ⟨hkey st, ?_, ?_, by decide, by decide⟩
  · rw [hkey st, hexEncode_length, List.length_take, sha256Bytes_length]
    rfl
  · intro h
    rw [hkey st, hkey st2]
    simp only [fingerprintKey, h]

/-- C2 witness: appending a native frame after the single non-native
frame leaves the fingerprint unchanged. -/
theorem calculateFingerprint_wit :
    calculateFingerprint "OrderNotFoundError" [fetchOrderFrame] =
      calculateFingerprint "OrderNotFoundError" [fetchOrderFrame, nativeFrame] :=
  (calculateFingerprint_spec "OrderNotFoundError" [fetchOrderFrame]
      [fetchOrderFrame, nativeFrame]).2.2.1 (by decide)

/-- Upserting a key makes it retrievable with the stored value. -/
theorem assocGet_assocSet {α : Type} (m : List (String × α)) (k : String) (v : α) :
    assocGet (assocSet m k v) k = some v := by
  by_cases h : m.any (fun p => p.1 == k)
  · simp only [assocSet, h, if_true]
    induction m with
    | nil => simp at h
    | cons p rest ih =>
      by_cases hp : (p.1 == k) = true
      · simp [assocGet, List.find?, hp]
      · have hr : rest.any (fun p => p.1 == k) = true := by
          simp only [List.any_cons, hp, Bool.false_or] at h
          exact h
        simpa [assocGet, List.find?, hp] using ih hr
  · simp only [assocSet, h, if_false]
    induction m with
    | nil => simp [assocGet, List.find?]
    | cons p rest ih =>
      simp only [List.any_cons, Bool.or_eq_true, not_or] at h
      simp only [List.cons_append, assocGet, List.find?,
        Bool.not_eq_true _ ▸ h.1]
      simpa [assocGet, Bool.not_eq_true _ ▸ h.1] using ih (by simp [h.2])

/-- The rate limiter never touches the probe registry. -/
theorem rateLimitOk_breakpoints (m : BPManager) (now : Int) :
    (rateLimitOk m now).1.breakpoints = m.breakpoints := by
  simp only [rateLimitOk]
  split_ifs <;> rfl

/-- A trigger that forwards nothing leaves every hit count unchanged
(the registry is untouched). -/
theorem hit_noop_preserves (m : BPManager) (id : String) (now : Int)
    (st : List RawFrame) (h : (Hit m id now st).2 = none) :
    (Hit m id now st).1.breakpoints = m.breakpoints := by
  unfold Hit at h ⊢
  cases hg : assocGet m.breakpoints id with
  | none => simp [hg]
  | some bp =>
      simp only [hg] at h ⊢
      by_cases hc : bp.hitCount ≥ bp.maxHits
      · simp [hc]
      · simp only [if_neg hc] at h ⊢
        by_cases hr : (rateLimitOk m now).2 = true
        · simp [hr] at h
        · simp only [Bool.not_eq_true] at hr
          simp [hr, rateLimitOk_breakpoints]

/-- C7: a trigger on an unregistered id (in particular on a fresh
manager, before any `Set`) forwards nothing; `Set` clamps `maxHits` into
[1, 50] and resets the hit count to zero; a non-forwarding trigger
leaves the registry (hence every hit count) unchanged; and with
`maxHits = 3` the first three triggers forward payloads carrying the
file path, line number, stack sample and hit counts 1, 2, 3, keyed by
the probe id, while the fourth forwards nothing. -/
theorem breakpoint_hit_spec (m : BPManager) (id fp : String) (ln : Int)
    (cond : String) (mh now : Int) (st : List RawFrame) :
    (assocGet m.breakpoints id = none → Hit m id now st = (m, none)) ∧
    (∀ t0 : Int, Hit (NewManager t0) id now st = (NewManager t0, none)) ∧
    (∃ info : BreakpointInfo,
      assocGet (SetBreakpoint m id fp ln cond mh now).breakpoints id = some info ∧
      1 ≤ info.maxHits ∧ info.maxHits ≤ 50 ∧ info.hitCount = 0) ∧
    ((Hit m id now st).2 = none → (Hit m id now st).1.breakpoints = m.breakpoints) ∧
    (bpHit1.2 = some ("bp1", ⟨0, "app.go", 10, [mkProbeFrame appRaw], 1⟩)) ∧
    (bpHit2.2 = some ("bp1", ⟨0, "app.go", 10, [mkProbeFrame appRaw], 2⟩)) ∧
    (bpHit3.2 = some ("bp1", ⟨0, "app.go", 10, [mkProbeFrame appRaw], 3⟩)) ∧
    (bpHit4.2 = none) := by
  refine ⟨fun h => by simp [Hit, h],
         fun t0 => by simp [Hit, NewManager, assocGet, List.find?],
         ?_, hit_noop_preserves m id now st, by decide, by decide, by decide, by decide⟩
  simp only [SetBreakpoint]
  refine ⟨_, assocGet_assocSet _ _ _, ?_, ?_, rfl⟩ <;> dsimp <;> split_ifs <;> omega

/-- C7 witness: a trigger before any `Set` is a no-op, and the fourth
(non-forwarding) trigger leaves the registry of the third state
unchanged. -/
theorem breakpoint_hit_wit :
    Hit (NewManager 5) "nope" 0 [] = (NewManager 5, none) ∧
    bpHit4.1.breakpoints = bpHit3.1.breakpoints :=
  ⟨(breakpoint_hit_spec (NewManager 5) "nope" "" 0 "" 1 0 []).1 (by decide),
   (breakpoint_hit_spec bpHit3.1 "bp1" "" 0 "" 1 0 [appRaw]).2.2.2.1 (by decide)⟩

/-- Within the current window (no reset), one trigger preserves the
window start, adds one to the shared counter exactly when it forwards,
and forwards only while the counter is below 50. -/
theorem hit_rate_effect (m : BPManager) (id : String) (now : Int)
    (hw : now - m.captureWindowStart < 1000000000) :
    ((Hit m id now []).1.captureWindowStart = m.captureWindowStart) ∧
    ((Hit m id now []).1.captureCount =
      m.captureCount + (if (Hit m id now []).2.isSome then 1 else 0)) ∧
    ((Hit m id now []).2.isSome = true → m.captureCount < 50) := by
  have hnr : ¬ (now - m.captureWindowStart ≥ 1000000000) := by omega
  unfold Hit
  cases hg : assocGet m.breakpoints id with
  | none => simp
  | some bp =>
      by_cases hc : bp.hitCount ≥ bp.maxHits
      · simp [hc]
      · by_cases h50 : m.captureCount ≥ maxCapturesPerSecond
        · simp [hc, rateLimitOk, hnr, h50]
        · simp [hc, rateLimitOk, hnr, h50, assocSet]
          simp only [maxCapturesPerSecond] at h50
          omega

/-- Within one window, the number of forwarded payloads over any call
sequence is bounded by the budget remaining in the shared counter. -/
theorem runHits_within (calls : List (String × Int)) (m : BPManager)
    (hc : m.captureCount ≤ 50)
    (hw : ∀ c ∈ calls, c.2 - m.captureWindowStart < 1000000000) :
    ((runHits m calls).1.captureWindowStart = m.captureWindowStart) ∧
    ((runHits m calls).1.captureCount =
      m.captureCount + ((runHits m calls).2.length : Int)) ∧
    ((runHits m calls).1.captureCount ≤ 50) := by
  induction calls generalizing m with
  | nil => simpa [runHits] using hc
  | cons c rest ih =>
      obtain ⟨id, now⟩ := c
      have hwh : now - m.captureWindowStart < 1000000000 := hw (id, now) (by simp)
      have he := hit_rate_effect m id now hwh
      have hc1 : (Hit m id now []).1.captureCount ≤ 50 := by
        rcases he with ⟨-, h2, h3⟩
        by_cases hs : (Hit m id now []).2.isSome = true
        · have := h3 hs
          simp [h2, hs]
          omega
        · simp only [Bool.not_eq_true] at hs
          simp [h2, hs]
          omega
      have hw1 : ∀ c ∈ rest, c.2 - (Hit m id now []).1.captureWindowStart < 1000000000 := by
        intro c hcmem
        rw [he.1]
        exact hw c (by simp [hcmem])
      have hrest := ih (Hit m id now []).1 hc1 hw1
      simp only [runHits]
      cases hs : (Hit m id now []).2 with
      | none =>
          refine ⟨by rw [hrest.1, he.1], ?_, hrest.2.2⟩
          rw [hrest.2.1, he.2.1]
          simp [hs]
      | some x =>
          refine ⟨by rw [hrest.1, he.1], ?_, hrest.2.2⟩
          rw [hrest.2.1, he.2.1]
          simp [hs]
          omega

/-- C8: the shared limiter admits at most 50 forwards per window — over
any mix of probes and any sequence of calls inside one second of the
window start, the payload count is bounded by the remaining budget (50
with a fresh counter); and a check at least one full second after the
window start resets the window lazily and succeeds again. -/
theorem rate_limiter_spec (m : BPManager) (calls : List (String × Int)) (now : Int) :
    (m.captureCount ≤ 50 → (∀ c ∈ calls, c.2 - m.captureWindowStart < 1000000000) →
      ((runHits m calls).2.length : Int) ≤ 50 - m.captureCount) ∧
    (m.captureCount = 0 → (∀ c ∈ calls, c.2 - m.captureWindowStart < 1000000000) →
      (runHits m calls).2.length ≤ 50) ∧
    (1000000000 ≤ now - m.captureWindowStart →
      (rateLimitOk m now).2 = true ∧
      (rateLimitOk m now).1.captureCount = 1 ∧
      (rateLimitOk m now).1.captureWindowStart = now) := by
  have hb : m.captureCount ≤ 50 →
      (∀ c ∈ calls, c.2 - m.captureWindowStart < 1000000000) →
      ((runHits m calls).2.length : Int) ≤ 50 - m.captureCount := by
    intro hc hw
    have h := runHits_within calls m hc hw
    omega
  refine ⟨hb, ?_, ?_⟩
  · intro hc hw
    have := hb (by omega) hw
    omega
  · intro h
    have hge : now - m.captureWindowStart ≥ 1000000000 := h
    simp [rateLimitOk, hge, maxCapturesPerSecond]

/-- C8 witness: a call on the fresh manager forwards at most 50
payloads, and a check two seconds after the window start is admitted
with a reset window. -/
theorem rate_limiter_wit :
    (runHits (NewManager 0) [("a", 0)]).2.length ≤ 50 ∧
    (rateLimitOk (NewManager 0) 2000000000).2 = true :=
  ⟨(rate_limiter_spec (NewManager 0) [("a", 0)] 0).2.1 (by decide)
      (by
        intro c hcmem
        simp only [List.mem_singleton] at hcmem
        subst hcmem
        norm_num [NewManager]),
   ((rate_limiter_spec (NewManager 0) [] 2000000000).2.2 (by decide)).1⟩

/-- Beyond the depth bound, every non-nil shape yields the terminal
truncated placeholder with no children and no descent. -/
theorem captureValue_beyond (name : String) (v : GoValue) (depth maxDepth : Int)
    (hd : maxDepth < depth) (hv : v ≠ GoValue.vnil) :
    captureValue name v depth maxDepth = maxDepthVar name (goTypeName v) := by
  cases v with
  | vnil => exact absurd rfl hv
  | vscalar t r => simp [captureValue, goTypeName, hd]
  | vstring s => simp [captureValue, goTypeName, hd]
  | vptr t inner => cases inner <;> simp [captureValue, goTypeName, hd]
  | vslice t elems => simp [captureValue, goTypeName, hd]
  | vmap t entries => simp [captureValue, goTypeName, hd]
  | vstruct t short fields => simp [captureValue, goTypeName, hd]
  | vother t kind => simp [captureValue, goTypeName, hd]

/-- The element loop emits at least one node when given a non-empty
list and a positive budget. -/
theorem captureElems_cons_ne_nil (e : GoValue) (rest : List GoValue)
    (r idx : Nat) (d md : Int) :
    captureElems (e :: rest) (r + 1) idx d md ≠ [] := by
  simp [captureElems]

/-- The entry loop emits at least one node when given a non-empty list
and a positive budget. -/
theorem captureEntries_cons_ne_nil (k : String) (v : GoValue)
    (rest : List (String × GoValue)) (r : Nat) (d md : Int) :
    captureEntries ((k, v) :: rest) (r + 1) d md ≠ [] := by
  simp [captureEntries]

/-- Within the depth bound, no shape yields the max-depth placeholder
(strong induction on the value's size; only the transparent pointer
dereference recurses at the same depth). -/
theorem captureValue_not_placeholder (n : Nat) :
    ∀ v : GoValue, sizeOf v ≤ n → ∀ (name : String) (depth maxDepth : Int),
      depth ≤ maxDepth →
      isMaxDepthPlaceholder (captureValue name v depth maxDepth) = false := by
  induction n with
  | zero =>
      intro v hv
      exfalso
      cases v <;> simp at hv
  | succ n ih =>
      intro v hv name depth maxDepth hd
      have hng : ¬ (depth > maxDepth) := by omega
      cases v with
      | vnil =>
          simp [captureValue, isMaxDepthPlaceholder, Variable.value,
            Variable.isTruncated, Variable.children, Variable.arrayElements]
      | vscalar t r =>
          simp [captureValue, hng, isMaxDepthPlaceholder, Variable.value,
            Variable.isTruncated, Variable.children, Variable.arrayElements]
      | vstring s =>
          by_cases hlen : s.data.length > 1000
          · have hne : String.mk (s.data.take 1000) ≠ "<max depth exceeded>" := by
              intro h
              have h1 : s.data.take 1000 = ("<max depth exceeded>" : String).data :=
                congrArg String.data h
              have h2 := congrArg List.length h1
              rw [List.length_take] at h2
              have h3 : (("<max depth exceeded>" : String).data).length = 20 := by decide
              rw [h3] at h2
              omega
            have hb : (String.mk (s.data.take 1000) == "<max depth exceeded>") = false :=
              beq_eq_false_iff_ne.mpr hne
            simp [captureValue, hng, isMaxDepthPlaceholder, Variable.value,
              Variable.isTruncated, Variable.children, Variable.arrayElements, hb]
          · have hdec : decide (s.data.length > 1000) = false := decide_eq_false hlen
            simp [captureValue, hng, isMaxDepthPlaceholder, Variable.value,
              Variable.isTruncated, Variable.children, Variable.arrayElements, hdec]
            intro _
            have hsl : s.length = s.data.length := rfl
            omega
      | vptr t inner =>
          cases inner with
          | none =>
              simp [captureValue, hng, isMaxDepthPlaceholder, Variable.value,
                Variable.isTruncated, Variable.children, Variable.arrayElements]
          | some g =>
              have hsz : sizeOf g ≤ n := by
                simp only [GoValue.vptr.sizeOf_spec, Option.some.sizeOf_spec] at hv
                omega
              simpa [captureValue, hng] using ih g hsz name depth maxDepth hd
      | vslice t elems =>
          by_cases hlen : elems.length > 100
          · cases elems with
            | nil => simp at hlen
            | cons e rest =>
                have hlc : 100 < rest.length + 1 := by simpa using hlen
                have hme : ¬ (rest.length + 1 < 100) := by omega
                simp [captureValue, hng, isMaxDepthPlaceholder, Variable.value,
                  Variable.isTruncated, Variable.children, Variable.arrayElements, hme]
                intros
                exact captureElems_cons_ne_nil e rest 99 0 depth maxDepth
          · have hdec : decide (elems.length > 100) = false := decide_eq_false hlen
            simp [captureValue, hng, isMaxDepthPlaceholder, Variable.value,
              Variable.isTruncated, Variable.children, Variable.arrayElements, hdec]
      | vmap t entries =>
          by_cases hlen : entries.length > 100
          · cases entries with
            | nil => simp at hlen
            | cons e rest =>
                have hlc : 100 < rest.length + 1 := by simpa using hlen
                have hme : ¬ (rest.length + 1 < 100) := by omega
                obtain ⟨ek, ev⟩ := e
                simp [captureValue, hng, isMaxDepthPlaceholder, Variable.value,
                  Variable.isTruncated, Variable.children, Variable.arrayElements, hme]
                intros
                exact captureEntries_cons_ne_nil ek ev rest 99 depth maxDepth
          · have hdec : decide (entries.length > 100) = false := decide_eq_false hlen
            simp [captureValue, hng, isMaxDepthPlaceholder, Variable.value,
              Variable.isTruncated, Variable.children, Variable.arrayElements, hdec]
      | vstruct t short fields =>
          simp [captureValue, hng, isMaxDepthPlaceholder, Variable.value,
            Variable.isTruncated, Variable.children, Variable.arrayElements]
      | vother t kind =>
          simp [captureValue, hng, isMaxDepthPlaceholder, Variable.value,
            Variable.isTruncated, Variable.children, Variable.arrayElements]

/-- C1 counterexample: a nil value reached beyond the depth bound is
returned as the untruncated nil leaf, not as the truncated max-depth
placeholder — the claim's "regardless of the value's shape" fails on
nil. -/
theorem captureValue_nil_beyond_depth_not_placeholder :
    isMaxDepthPlaceholder (captureValue "x" GoValue.vnil 1 0) = false ∧
    (captureValue "x" GoValue.vnil 1 0).isTruncated = false ∧
    (captureValue "x" GoValue.vnil 1 0).value = "nil" := by
  refine ⟨?_, ?_, ?_⟩ <;>
    simp [captureValue, isMaxDepthPlaceholder, Variable.value,
      Variable.isTruncated, Variable.children, Variable.arrayElements]

/-- C1 (amended: the depth guard applies to non-nil values — a nil
reached beyond the bound yields the nil leaf instead, per C10): at depth
at most `maxDepth` no node is the max-depth placeholder; at any depth
beyond `maxDepth` every non-nil value yields the terminal truncated
placeholder node with no children and no further descent. -/
theorem captureValue_depth_guard (name : String) (v : GoValue) (depth maxDepth : Int) :
    (depth ≤ maxDepth →
      isMaxDepthPlaceholder (captureValue name v depth maxDepth) = false) ∧
    (maxDepth < depth → v ≠ GoValue.vnil →
      captureValue name v depth maxDepth = maxDepthVar name (goTypeName v)) :=
  ⟨fun hd => captureValue_not_placeholder (sizeOf v) v le_rfl name depth maxDepth hd,
   fun hd hv => captureValue_beyond name v depth maxDepth hd hv⟩

/-- C1 witness: a scalar at depth `maxDepth` is not the placeholder; an
empty slice one past the bound is exactly the placeholder. -/
theorem captureValue_depth_guard_wit :
    isMaxDepthPlaceholder (captureValue "x" (GoValue.vscalar "int" "7") 2 2) = false ∧
    captureValue "x" (GoValue.vslice "[]int" []) 3 2 = maxDepthVar "x" "[]int" :=
  ⟨(captureValue_depth_guard "x" (GoValue.vscalar "int" "7") 2 2).1 (by decide),
   (captureValue_depth_guard "x" (GoValue.vslice "[]int" []) 3 2).2 (by decide)
     (by simp)⟩

/-- Upserting never removes a key already present. -/
theorem assocHasKey_assocSet {α : Type} (m : List (String × α)) (k k' : String)
    (v : α) (h : assocHasKey m k = true) :
    assocHasKey (assocSet m k' v) k = true := by
  by_cases hany : m.any (fun p => p.1 == k')
  · simp only [assocSet, hany, if_true]
    simp only [assocHasKey, List.any_map, List.any_eq_true] at h ⊢
    obtain ⟨p, hp, hpk⟩ := h
    refine ⟨p, hp, ?_⟩
    by_cases hpk' : (p.1 == k') = true
    · have he : p.1 = k' := by simpa using hpk'
      simp only [Function.comp_apply, hpk', if_true]
      rw [← he]
      exact hpk
    · simp only [Function.comp_apply, hpk', if_false]
      exact hpk
  · have hf : (m.any fun p => p.1 == k') = false := by
      simp only [Bool.not_eq_true] at hany
      exact hany
    simp only [assocHasKey] at h
    simp [assocSet, hf, assocHasKey, List.any_append, h]

/-- Upserting a key makes it present. -/
theorem assocHasKey_assocSet_self {α : Type} (m : List (String × α)) (k : String)
    (v : α) : assocHasKey (assocSet m k v) k = true := by
  by_cases hany : assocHasKey m k = true
  · exact assocHasKey_assocSet m k k v hany
  · simp only [assocHasKey] at hany
    simp [assocSet, hany, assocHasKey]

/-- The error-field loop only adds keys: presence is preserved. -/
theorem extractFieldsLoop_mono (fields : List (Bool × String × GoValue)) (r : Nat)
    (vars : List (String × Variable)) (maxDepth : Int) (k : String)
    (h : assocHasKey vars k = true) :
    assocHasKey (extractFieldsLoop vars fields r maxDepth) k = true := by
  induction fields generalizing vars r with
  | nil => simpa [extractFieldsLoop] using h
  | cons f rest ih =>
      cases r with
      | zero => simpa [extractFieldsLoop] using h
      | succ r' =>
          obtain ⟨ex, fname, fv⟩ := f
          by_cases hex : ex = true
          · simp only [extractFieldsLoop, hex, if_true]
            exact ih r' _ (assocHasKey_assocSet _ _ _ _ h)
          · simp only [Bool.not_eq_true] at hex
            simp only [extractFieldsLoop, hex, Bool.false_eq_true, if_false]
            exact ih r' _ h

/-- `extractErrorFields` preserves key presence. -/
theorem extractErrorFields_mono (err : GoError) (vars : List (String × Variable))
    (maxDepth : Int) (k : String) (h : assocHasKey vars k = true) :
    assocHasKey (extractErrorFields err vars maxDepth) k = true := by
  unfold extractErrorFields
  cases err.structFields with
  | none => exact h
  | some fields => exact extractFieldsLoop_mono fields 50 vars maxDepth k h

/-- `extractWrappedErrors` preserves key presence. -/
theorem extractWrappedErrors_mono (err : GoError) (vars : List (String × Variable))
    (maxDepth : Int) (k : String) (h : assocHasKey vars k = true) :
    assocHasKey (extractWrappedErrors err vars maxDepth) k = true := by
  unfold extractWrappedErrors
  have h1 : ∀ v1 : List (String × Variable), assocHasKey v1 k = true →
      assocHasKey (match err.unwrapMany with
        | some errors =>
            if errors.length > 0 then
              assocSet v1 "wrapped_errors"
                (Variable.mk "wrapped_errors" "[]error"
                  ("[" ++ toString errors.length ++ " errors]") false false []
                  (wrappedElems errors 10) (some (Int.ofNat errors.length)))
            else v1
        | none => v1) k = true := by
    intro v1 hv1
    cases err.unwrapMany with
    | none => exact hv1
    | some errors =>
        by_cases hl : errors.length > 0
        · simp only [hl, if_true]
          exact assocHasKey_assocSet _ _ _ _ hv1
        · simp only [hl, if_false]
          exact hv1
  have h0 : assocHasKey (match err.unwrapOne with
      | some inner =>
          extractErrorFields inner
            (assocSet vars "wrapped_error" (errEntryVar "wrapped_error" inner))
            maxDepth
      | none => vars) k = true := by
    cases err.unwrapOne with
    | none => exact h
    | some inner =>
        exact extractErrorFields_mono inner _ maxDepth k
          (assocHasKey_assocSet _ _ _ _ h)
  cases err.cause with
  | none => exact h1 _ h0
  | some c => exact assocHasKey_assocSet _ _ _ _ (h1 _ h0)

/-- Seeding the variable map from the context makes every context key
present (the fold only ever adds or overwrites keys). -/
theorem seedContextVars_covers (ctx : List (String × GoValue)) (maxDepth : Int)
    (acc : List (String × Variable)) (k : String) (v : GoValue)
    (h : (k, v) ∈ ctx ∨ assocHasKey acc k = true) :
    assocHasKey
      (ctx.foldl (fun vars p => assocSet vars p.1 (captureValue p.1 p.2 0 maxDepth)) acc)
      k = true := by
  induction ctx generalizing acc with
  | nil =>
      rcases h with h | h
      · exact absurd h (List.not_mem_nil _)
      · simpa using h
  | cons p rest ih =>
      simp only [List.foldl_cons]
      apply ih
      rcases h with h | h
      · rcases List.mem_cons.mp h with he | hm
        · right
          have hpk : p.1 = k := by rw [← he]
          rw [← hpk]
          exact assocHasKey_assocSet_self _ _ _
        · left
          exact hm
      · right
        exact assocHasKey_assocSet _ _ _ _ h

/-- C3: the embedded `CaptureError` is a total function — every
representable error, context and depth yields a fully assembled
`ExceptionCapture` (the no-raise contract; each value shape, the opaque
default included, degrades to a node rather than failing), whose type
and message come from the error, whose context is the caller's mapping,
and whose variable map contains an entry for every context key. -/
theorem captureError_spec (err : GoError) (maxDepth : Int)
    (ctx : List (String × GoValue)) (rawStack : List RawFrame) (id ts : String) :
    (CaptureError err maxDepth ctx rawStack id ts).exceptionType = err.typeName ∧
    (CaptureError err maxDepth ctx rawStack id ts).message = err.message ∧
    (CaptureError err maxDepth ctx rawStack id ts).context = ctx ∧
    (CaptureError err maxDepth ctx rawStack id ts).capturedAt = ts ∧
    ∀ k v, (k, v) ∈ ctx →
      assocHasKey (CaptureError err maxDepth ctx rawStack id ts).localVariables k
        = true := by
  refine ⟨rfl, rfl, rfl, rfl, fun k v hm => ?_⟩
  show assocHasKey
    (extractWrappedErrors err
      (extractErrorFields err (seedContextVars ctx maxDepth) maxDepth) maxDepth) k = true
  exact extractWrappedErrors_mono err _ maxDepth k
    (extractErrorFields_mono err _ maxDepth k
      (seedContextVars_covers ctx maxDepth [] k v (Or.inl hm)))

/-- C3 witness: the concrete capture of `errFix` carries its context key
`user` in the assembled variable map. -/
theorem captureError_wit :
    assocHasKey
      (CaptureError errFix 3 ctxFix [appRaw] "id-1" "2026-01-01T00:00:00Z").localVariables
      "user" = true :=
  (captureError_spec errFix 3 ctxFix [appRaw] "id-1" "2026-01-01T00:00:00Z").2.2.2.2
    "user" (GoValue.vscalar "string" "alice") (by simp [ctxFix])

/-- The exception sampler's frame loop never collects more than its
remaining budget of 50. -/
theorem captureLoop_length (l : List RawFrame) (n : Nat) (hn : n < 50) :
    (captureLoop l n).length + n ≤ 50 := by
  induction l generalizing n with
  | nil =>
      simp only [captureLoop, List.length_nil]
      omega
  | cons f rest ih =>
      by_cases hr : strStarts f.function "runtime." = true
      · simpa [captureLoop, hr] using ih n hn
      · simp only [Bool.not_eq_true] at hr
        by_cases h50 : n + 1 ≥ 50
        · simp only [captureLoop, hr, Bool.false_eq_true, if_false, h50, if_true,
            List.length_singleton]
          omega
        · have := ih (n + 1) (by omega)
          simp only [captureLoop, hr, Bool.false_eq_true, if_false, h50,
            List.length_cons]
          omega

/-- Every frame the exception sampler retains comes from a non-runtime
raw frame, converted by `mkStackFrame`. -/
theorem captureLoop_mem (l : List RawFrame) (n : Nat) :
    ∀ sf ∈ captureLoop l n, ∃ f ∈ l,
      strStarts f.function "runtime." = false ∧ sf = mkStackFrame f := by
  induction l generalizing n with
  | nil => simp [captureLoop]
  | cons g rest ih =>
      intro sf hsf
      by_cases hr : strStarts g.function "runtime." = true
      · simp only [captureLoop, hr, if_true] at hsf
        obtain ⟨f, hf, hp⟩ := ih n sf hsf
        exact ⟨f, List.mem_cons_of_mem g hf, hp⟩
      · simp only [Bool.not_eq_true] at hr
        by_cases h50 : n + 1 ≥ 50
        · simp only [captureLoop, hr, Bool.false_eq_true, if_false, h50, if_true,
            List.mem_singleton] at hsf
          exact ⟨g, List.mem_cons_self g rest, hr, hsf⟩
        · simp only [captureLoop, hr, Bool.false_eq_true, if_false, h50,
            List.mem_cons] at hsf
          rcases hsf with hsf | hsf
          · exact ⟨g, List.mem_cons_self g rest, hr, hsf⟩
          · obtain ⟨f, hf, hp⟩ := ih (n + 1) sf hsf
            exact ⟨f, List.mem_cons_of_mem g hf, hp⟩

/-- C9 counterexample: a raw frame attributable to the core runtime
(`runtime.main` in `runtime/proc.go`) is retained by the probe manager's
`buildStackTrace` — and forwarded in a trigger payload — with its
`is_native` flag false even though the file lies in the runtime's source
tree; the exception sampler of pkg/capture would have discarded it. -/
theorem buildStackTrace_keeps_runtime_frames :
    buildStackTrace [runtimeRaw] = [mkProbeFrame runtimeRaw] ∧
    (mkProbeFrame runtimeRaw).isNative = false ∧
    strStarts (mkProbeFrame runtimeRaw).filePath "runtime/" = true ∧
    (Hit bpRt "rt" 0 [runtimeRaw]).2 =
      some ("rt", ⟨0, "x.go", 1, [mkProbeFrame runtimeRaw], 1⟩) ∧
    captureStackTrace [runtimeRaw] = [] := by
  decide

/-- C9 (amended: the probe payload's sample comes from the probe
manager's own `buildStackTrace`, which keeps every frame of the at most
50 collected program counters — runtime frames included — and marks
`is_native` true exactly when the frame's file path is empty; the
claimed discard/cap/classification properties hold of the exception
sampler `captureStackTrace` in pkg/capture): forwarded payloads carry
`buildStackTrace` output; `buildStackTrace` maps the first 50 raw frames
unfiltered; both samplers retain at most 50 frames; and the exception
sampler drops `runtime.`-attributed frames and marks `is_native` by the
`runtime/` file-path test. -/
theorem stack_sampler_spec (m : BPManager) (id : String) (now : Int)
    (raw : List RawFrame) (bid : String) (p : HitPayload) :
    ((Hit m id now raw).2 = some (bid, p) → p.stackTrace = buildStackTrace raw) ∧
    (raw ≠ [] → buildStackTrace raw = (raw.take 50).map mkProbeFrame) ∧
    ((buildStackTrace raw).length ≤ 50) ∧
    (∀ pf ∈ buildStackTrace raw, pf.isNative = (pf.filePath == "")) ∧
    ((captureStackTrace raw).length ≤ 50) ∧
    (∀ sf ∈ captureStackTrace raw, ∃ f ∈ raw,
      strStarts f.function "runtime." = false ∧ sf = mkStackFrame f) ∧
    (∀ sf ∈ captureStackTrace raw, sf.isNative = strStarts sf.filePath "runtime/") := by
  have hmem : ∀ sf ∈ captureStackTrace raw, ∃ f ∈ raw,
      strStarts f.function "runtime." = false ∧ sf = mkStackFrame f := by
    intro sf hsf
    obtain ⟨f, hf, hp⟩ := captureLoop_mem (raw.take 50) 0 sf hsf
    exact ⟨f, List.take_subset 50 raw hf, hp⟩
  refine ⟨?_, ?_, ?_, ?_, ?_, hmem, ?_⟩
  · intro h
    unfold Hit at h
    cases hg : assocGet m.breakpoints id with
    | none => simp [hg] at h
    | some bp =>
        simp only [hg] at h
        by_cases hc : bp.hitCount ≥ bp.maxHits
        · simp [hc] at h
        · simp only [if_neg hc] at h
          by_cases hrl : (rateLimitOk m now).2 = true
          · simp only [hrl, Bool.not_true, Bool.false_eq_true, if_false] at h
            obtain ⟨-, hp⟩ := Prod.mk.injEq .. ▸ Option.some.injEq .. ▸ h
            exact congrArg HitPayload.stackTrace hp.symm ▸ rfl
          · simp only [Bool.not_eq_true] at hrl
            simp [hrl] at h
  · intro hne
    cases raw with
    | nil => exact absurd rfl hne
    | cons f rest => simp [buildStackTrace, List.take_succ_cons]
  · cases raw with
    | nil => simp [buildStackTrace]
    | cons f rest =>
        simp only [buildStackTrace, List.take_succ_cons, List.length_map,
          List.length_take, List.length_cons]
        omega
  · intro pf hpf
    cases raw with
    | nil =>
        simp only [buildStackTrace, List.take_nil, List.mem_singleton] at hpf
        subst hpf
        rfl
    | cons f rest =>
        simp only [buildStackTrace, List.take_succ_cons, List.mem_map] at hpf
        obtain ⟨g, -, hg⟩ := hpf
        subst hg
        rfl
  · simpa using captureLoop_length (raw.take 50) 0 (by omega)
  · intro sf hsf
    obtain ⟨f, -, -, hp⟩ := hmem sf hsf
    subst hp
    rfl

/-- C9 witness: the forwarded payload of the `bpRt` trigger carries
exactly `buildStackTrace` of the raw stack, and on a non-empty stack
`buildStackTrace` is the unfiltered frame map. -/
theorem stack_sampler_wit :
    (⟨0, "x.go", 1, [mkProbeFrame runtimeRaw], 1⟩ : HitPayload).stackTrace =
      buildStackTrace [runtimeRaw] ∧
    buildStackTrace [appRaw] = ([appRaw].take 50).map mkProbeFrame :=
  ⟨(stack_sampler_spec bpRt "rt" 0 [runtimeRaw] "rt"
      ⟨0, "x.go", 1, [mkProbeFrame runtimeRaw], 1⟩).1 (by decide),
   (stack_sampler_spec bpRt "rt" 0 [appRaw] "rt"
      ⟨0, "", 0, [], 0⟩).2.1 (by simp)⟩

end AgentGo
